import Mathlib

/-!
Formalisation of the core of hazcod/mailcheck (src/main.go): domain
extraction, mail-exchange lookup result handling, and the SMTP mailbox
check performed by checkMailbox, as a shallow embedding.

Network behaviour (DNS answers, TCP dial outcomes, SMTP replies) is
supplied as explicit data, and the functions below mirror the Go control
flow line by line.  In addition to the returned error value, checkMailbox
is given a trace of externally visible events (connections opened and
closed, protocol commands issued) so that resource-lifecycle properties
can be stated and checked.  Command payload strings (the HELO identity,
the MAIL FROM address, the RCPT TO address) do not influence any control
flow in the source and are not recorded in events.
-/

/-- Go error values as the program builds them: errors.New produces a
plain message, errors.Wrap wraps a cause with a message,
textproto.ReadResponse produces a reply-code error when the reply code is
outside the expected range, and transport-level failures (dial, read,
write) are opaque transport errors. -/
inductive GoError where
  | msg (s : String)
  | wrap (cause : GoError) (s : String)
  | replyCodeError (code : Nat)
  | transport (s : String)
deriving DecidableEq

/-- Number of occurrences of a separator character in a string, strings
being modelled as lists of characters. -/
def countSep (sep : Char) : List Char → Nat
  | [] => 0
  | c :: rest => (if c = sep then 1 else 0) + countSep sep rest

/-- Go strings.Split for a one-character separator: splits the string at
every occurrence of the separator, keeping empty parts, and yields one
part even for the empty string. -/
def splitOnChar (sep : Char) : List Char → List (List Char)
  | [] => [[]]
  | c :: rest =>
      if c = sep then [] :: splitOnChar sep rest
      else
        match splitOnChar sep rest with
        | [] => [[c]]
        | p :: ps => (c :: p) :: ps

/-- Embedding of extractDomain (src/main.go lines 49-56): split the
address on the at sign; if the number of parts is not exactly two, fail
with the invalid-address error; otherwise return the second part. -/
def extractDomain (email : List Char) : Except GoError (List Char) :=
  let parts := splitOnChar '@' email
  if parts.length = 2 then Except.ok (parts.getD 1 [])
  else Except.error (GoError.msg "invalid email address")

/-- A mail-exchange record as returned by the name service: a host name
and a preference value. -/
structure MXRecord where
  host : String
  pref : Nat
deriving DecidableEq

/-- Embedding of lookupMX (src/main.go lines 36-47).  The argument stands
for the outcome of the dnsResolver.LookupMX call: either the record list
or the lookup error.  On error the function returns an empty server list
together with that error; on success it returns the record hosts in
order, with no error. -/
def lookupMX (dnsResult : Except GoError (List MXRecord)) :
    List String × Option GoError :=
  match dnsResult with
  | Except.error e => ([], some e)
  | Except.ok recs => (recs.map MXRecord.host, none)

/-- Externally visible events of one checkMailbox run.  Servers are
identified by their zero-based position in the candidate list.  A
connection-opened event means the TCP dial succeeded; a connection-closed
event means the underlying connection was released.  Command events
record SMTP commands issued on a server's connection; quitCalled records
that Client.Quit was invoked, and quitSent that the QUIT command actually
went out on a still-open connection. -/
inductive Event where
  | dialAttempt (i : Nat)
  | connOpened (i : Nat)
  | connClosed (i : Nat)
  | cmdHello (i : Nat)
  | cmdMail (i : Nat)
  | cmdRcpt (i : Nat)
  | quitCalled (i : Nat)
  | quitSent (i : Nat)
deriving DecidableEq

/-- Number of occurrences of an event in a trace. -/
def countEvent (e : Event) : List Event → Nat
  | [] => 0
  | x :: rest => (if x = e then 1 else 0) + countEvent e rest

/-- Behaviour of one candidate mail server towards this client, fixing
the outcome of every network interaction the source can perform with it:
the TCP dial (src/main.go line 73), the greeting read inside
smtp.NewClient (line 79), the HELO exchange (line 96), the MAIL FROM
exchange (line 101), the write of the RCPT TO command (line 107), the
read of the RCPT TO reply (line 113, either a transport error or a reply
code), and the result of closing the connection. -/
structure MXBehavior where
  dialErr : Option GoError
  greetErr : Option GoError
  helloErr : Option GoError
  mailErr : Option GoError
  rcptSendErr : Option GoError
  replyRead : GoError ⊕ Nat
  closeErr : Option GoError
deriving DecidableEq

/-- Embedding of the server-selection loop of checkMailbox (src/main.go
lines 62-84), with the index of the current candidate and the current
value of the smtpClient variable threaded through.  Dial failure skips
the candidate and leaves smtpClient unchanged.  When the dial succeeds
but smtp.NewClient fails (the greeting read fails), NewClient closes the
connection and returns nil, so smtpClient is overwritten with none.  When
both succeed, smtpClient is overwritten with this candidate's client.
The loop never breaks early.  The result is the final value of smtpClient
together with the trace of the loop's events. -/
def selectLoopAux : List MXBehavior → Nat → Option (Nat × MXBehavior) →
    Option (Nat × MXBehavior) × List Event
  | [], _, client => (client, [])
  | b :: rest, i, client =>
      match b.dialErr with
      | some _ =>
          let r := selectLoopAux rest (i + 1) client
          (r.1, Event.dialAttempt i :: r.2)
      | none =>
          match b.greetErr with
          | some _ =>
              let r := selectLoopAux rest (i + 1) none
              (r.1, Event.dialAttempt i :: Event.connOpened i ::
                Event.connClosed i :: r.2)
          | none =>
              let r := selectLoopAux rest (i + 1) (some (i, b))
              (r.1, Event.dialAttempt i :: Event.connOpened i :: r.2)

/-- Model of textproto ReadResponse with expected code 25 (src/main.go
line 113): a transport error while reading yields code zero and that
error; a parsed reply code in the range 250-259 matches the expectation
and yields no error; any other parsed code is returned together with a
reply-code error. -/
def readReplyResult : GoError ⊕ Nat → Nat × Option GoError
  | Sum.inl e => (0, some e)
  | Sum.inr c => (c, if c / 10 = 25 then none else some (GoError.replyCodeError c))

/-- Embedding of the reply handling of checkMailbox (src/main.go lines
113-136), in source order: code 554 yields the blacklist error, code 550
the nonexistent-mailbox error, code 250 success; otherwise the code is
logged as unknown and the ReadResponse error, if any, is returned wrapped
as an smtp response error; with no read error the function succeeds. -/
def interpretReply (r : GoError ⊕ Nat) : Option GoError :=
  let code := (readReplyResult r).1
  let err := (readReplyResult r).2
  if code = 554 then some (GoError.msg "appears our IP is blacklisted")
  else if code = 550 then
    some (GoError.msg "email does not seem to exist (or server blocks detection)")
  else if code = 250 then none
  else
    match err with
    | some e => some (GoError.wrap e "smtp response error")
    | none => none

/-- Embedding of the protocol phase of checkMailbox on the selected
client (src/main.go lines 96-136): HELO, then MAIL FROM, then the RCPT TO
command, then the reply read.  Each failure is wrapped with the message
the source uses at that point (the RCPT TO write failure reuses the MAIL
FROM message, as in line 109) and stops the sequence.  The trace records
the commands issued. -/
def protocolPhase (b : MXBehavior) (i : Nat) : Option GoError × List Event :=
  match b.helloErr with
  | some e => (some (GoError.wrap e "could not HELO smtp server"), [Event.cmdHello i])
  | none =>
      match b.mailErr with
      | some e => (some (GoError.wrap e "could not MAIL FROM smtp server"),
          [Event.cmdHello i, Event.cmdMail i])
      | none =>
          match b.rcptSendErr with
          | some e => (some (GoError.wrap e "could not MAIL FROM smtp server"),
              [Event.cmdHello i, Event.cmdMail i, Event.cmdRcpt i])
          | none => (interpretReply b.replyRead,
              [Event.cmdHello i, Event.cmdMail i, Event.cmdRcpt i])

/-- Model of smtp.Client.Close on the selected client: releases the
underlying connection (when still open) and reports the close error,
which the source discards (src/main.go line 92). -/
def clientClose (b : MXBehavior) (connOpen : Bool) (i : Nat) :
    Option GoError × Bool × List Event :=
  (b.closeErr, false, if connOpen then [Event.connClosed i] else [])

/-- Model of smtp.Client.Quit: with the connection still open it sends
QUIT and then closes the connection; with the connection already closed
the QUIT write fails with a closed-network-connection error, nothing goes
out on the wire and no further release happens.  The source discards the
result either way (src/main.go line 93). -/
def clientQuit (connOpen : Bool) (i : Nat) :
    Option GoError × Bool × List Event :=
  if connOpen then
    (none, false, [Event.quitCalled i, Event.quitSent i, Event.connClosed i])
  else
    (some (GoError.transport "use of closed network connection"), false,
      [Event.quitCalled i])

/-- Embedding of the deferred cleanup of checkMailbox (src/main.go lines
91-94): Close first, then Quit, both results discarded.  The connection
is open when the deferred function starts, and is closed by Close before
Quit runs. -/
def deferredCleanup (b : MXBehavior) (i : Nat) : List Event :=
  let c1 := clientClose b true i
  let c2 := clientQuit c1.2.1 i
  c1.2.2 ++ c2.2.2

/-- Embedding of checkMailbox (src/main.go lines 58-137).  The string
arguments mirror the Go signature; they are command payloads only and do
not influence control flow.  The candidate list carries each server's
behaviour.  The result is the returned error (none for success) together
with the full event trace: the selection loop's events, then, if a client
was selected, the protocol phase's events followed by the deferred
cleanup; if the final smtpClient is nil, the function returns the
no-working-mail-servers error before the deferred cleanup is installed. -/
def checkMailbox (fromDomain fromEmail checkEmail : String)
    (servers : List MXBehavior) : Option GoError × List Event :=
  match selectLoopAux servers 0 none with
  | (none, tr) => (some (GoError.msg "no working mail servers could be found"), tr)
  | (some (i, b), tr) =>
      let p := protocolPhase b i
      (p.1, tr ++ p.2 ++ deferredCleanup b i)

/-- A candidate whose TCP dial is refused. -/
def behaviorRefused : MXBehavior :=
  { dialErr := some (GoError.transport "connection refused")
    greetErr := none, helloErr := none, mailErr := none
    rcptSendErr := none, replyRead := Sum.inr 250, closeErr := none }

/-- A candidate that accepts the connection and the whole session, and
answers the recipient probe with the given reply outcome. -/
def behaviorWithReply (r : GoError ⊕ Nat) : MXBehavior :=
  { dialErr := none, greetErr := none, helloErr := none, mailErr := none
    rcptSendErr := none, replyRead := r, closeErr := none }

/-- A fully working candidate whose recipient probe answers 250. -/
def behaviorAccept250 : MXBehavior := behaviorWithReply (Sum.inr 250)

/-- A candidate that accepts the TCP connection but whose greeting read
fails, so smtp.NewClient fails for it. -/
def behaviorGreetFail : MXBehavior :=
  { dialErr := none, greetErr := some (GoError.transport "greeting failed")
    helloErr := none, mailErr := none, rcptSendErr := none
    replyRead := Sum.inr 250, closeErr := none }

/-- Reply-code outcome table as the code actually implements it, for
comparison with the spec's verdict table: 554 maps to the blacklist
error, 550 to the nonexistent-mailbox error, 250 to success, the
remaining codes 251-259 to success as well, and every other code to a
wrapped reply-code error. -/
def specReplyOutcome (code : Nat) : Option GoError :=
  if code = 554 then some (GoError.msg "appears our IP is blacklisted")
  else if code = 550 then
    some (GoError.msg "email does not seem to exist (or server blocks detection)")
  else if code = 250 then none
  else if code / 10 = 25 then none
  else some (GoError.wrap (GoError.replyCodeError code) "smtp response error")

/-- Joins a list of parts with the separator between consecutive parts;
left inverse of splitOnChar. -/
def joinParts (sep : Char) : List (List Char) → List Char
  | [] => []
  | [p] => p
  | p :: q :: ps => p ++ sep :: joinParts sep (q :: ps)

theorem splitOnChar_ne_nil (sep : Char) (s : List Char) :
    splitOnChar sep s ≠ [] := by
  cases s with
  | nil => simp [splitOnChar]
  | cons c rest =>
      simp only [splitOnChar]
      split
      · simp
      · split <;> simp

theorem splitOnChar_length (sep : Char) (s : List Char) :
    (splitOnChar sep s).length = countSep sep s + 1 := by
  induction s with
  | nil => simp [splitOnChar, countSep]
  | cons c rest ih =>
      simp only [splitOnChar, countSep]
      by_cases h : c = sep
      · simp [h, ih]
        omega
      · rcases hsp : splitOnChar sep rest with _ | ⟨p, ps⟩
        · exact absurd hsp (splitOnChar_ne_nil sep rest)
        · rw [hsp] at ih
          simp [h, hsp, ih.symm]

theorem splitOnChar_join (sep : Char) (s : List Char) :
    joinParts sep (splitOnChar sep s) = s := by
  induction s with
  | nil => simp [splitOnChar, joinParts]
  | cons c rest ih =>
      by_cases h : c = sep
      · subst h
        rcases hsp : splitOnChar c rest with _ | ⟨p, ps⟩
        · exact absurd hsp (splitOnChar_ne_nil c rest)
        · rw [hsp] at ih
          simp only [splitOnChar, if_pos rfl, hsp, joinParts]
          simpa using ih
      · rcases hsp : splitOnChar sep rest with _ | ⟨p, ps⟩
        · exact absurd hsp (splitOnChar_ne_nil sep rest)
        · rw [hsp] at ih
          simp only [splitOnChar, if_neg h, hsp]
          cases ps with
          | nil => simpa [joinParts] using ih
          | cons q qs =>
              simp only [joinParts, List.cons_append] at ih ⊢
              rw [ih]

theorem splitOnChar_parts (sep : Char) (s : List Char) :
    ∀ p ∈ splitOnChar sep s, sep ∉ p := by
  induction s with
  | nil =>
      intro p hp
      simp [splitOnChar] at hp
      subst hp
      simp
  | cons c rest ih =>
      intro p hp
      by_cases h : c = sep
      · simp only [splitOnChar, if_pos h] at hp
        rcases List.mem_cons.mp hp with h1 | h1
        · subst h1; simp
        · exact ih p h1
      · simp only [splitOnChar, if_neg h] at hp
        rcases hsp : splitOnChar sep rest with _ | ⟨q, qs⟩
        · exact absurd hsp (splitOnChar_ne_nil sep rest)
        · rw [hsp] at hp
          rcases List.mem_cons.mp hp with h1 | h1
          · subst h1
            intro hmem
            rcases List.mem_cons.mp hmem with h2 | h2
            · exact h h2.symm
            · exact ih q (by rw [hsp]; exact List.mem_cons_self q qs) h2
          · exact ih p (by rw [hsp]; exact List.mem_cons_of_mem q h1)

/-- C5: for every input address, the domain extractor returns the
substring after the separator when the address contains exactly one
domain separator, and fails with the malformed-address error when the
separator count is zero or two or more.  (The embedding is a pure
function, so freedom from side effects is by construction.) -/
theorem extractDomain_correct (s : List Char) :
    (countSep '@' s = 1 →
      ∃ pre post, s = pre ++ '@' :: post ∧ '@' ∉ pre ∧ '@' ∉ post ∧
        extractDomain s = Except.ok post) ∧
    (countSep '@' s ≠ 1 →
      extractDomain s = Except.error (GoError.msg "invalid email address")) := by
  constructor
  · intro h1
    have hlen : (splitOnChar '@' s).length = 2 := by
      rw [splitOnChar_length, h1]
    obtain ⟨a, b, hab⟩ : ∃ a b, splitOnChar '@' s = [a, b] := by
      rcases hq : splitOnChar '@' s with _ | ⟨a, _ | ⟨b, _ | ⟨c, t⟩⟩⟩ <;>
        rw [hq] at hlen <;> simp at hlen
      exact ⟨a, b, rfl⟩
    refine ⟨a, b, ?_, ?_, ?_, ?_⟩
    · have hj := splitOnChar_join '@' s
      rw [hab] at hj
      simpa [joinParts] using hj.symm
    · exact splitOnChar_parts '@' s a (by rw [hab]; simp)
    · exact splitOnChar_parts '@' s b (by rw [hab]; simp)
    · simp [extractDomain, hab, List.getD]
  · intro h1
    have hlen : (splitOnChar '@' s).length ≠ 2 := by
      rw [splitOnChar_length]
      omega
    simp [extractDomain, hlen]

/-- Witness for C5 at the concrete address a(at)b. -/
theorem extractDomain_correct_witness :
    (∃ pre post, ['a', '@', 'b'] = pre ++ '@' :: post ∧ '@' ∉ pre ∧
      '@' ∉ post ∧ extractDomain ['a', '@', 'b'] = Except.ok post) ∧
    extractDomain ['x', 'y'] = Except.error (GoError.msg "invalid email address") :=
  ⟨(extractDomain_correct ['a', '@', 'b']).1 (by decide),
    (extractDomain_correct ['x', 'y']).2 (by decide)⟩

/-- C6 counterexample: the extractor accepts the address a(at) although
its domain part is empty, and accepts (at)b although its local part is
empty, contradicting the claimed non-emptiness invariant. -/
theorem extractDomain_accepts_empty_parts :
    extractDomain ['a', '@'] = Except.ok [] ∧
    extractDomain ['@', 'b'] = Except.ok ['b'] := by
  constructor <;> rfl

/-- C6 (amended): every address accepted by the domain extractor contains
exactly one domain separator; the local part and the domain may however
be empty, so an accepted address can yield an empty domain. -/
theorem extractDomain_ok_one_sep (s d : List Char)
    (h : extractDomain s = Except.ok d) : countSep '@' s = 1 := by
  by_cases hlen : (splitOnChar '@' s).length = 2
  · have hl := splitOnChar_length '@' s
    omega
  · simp [extractDomain, hlen] at h

/-- Witness for the amended C6 at a concrete accepted address. -/
theorem extractDomain_ok_one_sep_witness : countSep '@' ['a', '@', 'c'] = 1 :=
  extractDomain_ok_one_sep ['a', '@', 'c'] ['c'] rfl

/-- C7: when the name-service lookup succeeds with an empty record set,
lookupMX returns an empty host list and no error; when it succeeds it
returns the hosts in record order with no error; when the lookup fails it
returns the underlying error itself (so the cause is carried), an outcome
distinct from the empty-list success. -/
theorem lookupMX_empty_vs_failure :
    lookupMX (Except.ok []) = ([], none) ∧
    (∀ recs : List MXRecord, lookupMX (Except.ok recs) = (recs.map MXRecord.host, none)) ∧
    (∀ e : GoError, lookupMX (Except.error e) = ([], some e)) ∧
    (∀ e : GoError, lookupMX (Except.error e) ≠ lookupMX (Except.ok [])) := by
  refine ⟨rfl, fun recs => rfl, fun e => rfl, fun e h => ?_⟩
  simp [lookupMX] at h

/-- C10: on an empty candidate list the selection loop body never runs:
checkMailbox returns the no-usable-server error and the event trace is
empty, so no connection was attempted and no protocol command issued. -/
theorem checkMailbox_empty_servers :
    checkMailbox "d" "s" "e" [] =
      (some (GoError.msg "no working mail servers could be found"), []) := rfl

theorem selectLoopAux_sel_index (bs : List MXBehavior) :
    ∀ (k : Nat) (acc : Option (Nat × MXBehavior)) (i : Nat) (b : MXBehavior),
      (selectLoopAux bs k acc).1 = some (i, b) → acc = some (i, b) ∨ k ≤ i := by
  induction bs with
  | nil =>
      intro k acc i b h
      simp [selectLoopAux] at h
      exact Or.inl h
  | cons hd tl ih =>
      intro k acc i b h
      rcases hd1 : hd.dialErr with _ | e1
      · rcases hd2 : hd.greetErr with _ | e2
        · simp only [selectLoopAux, hd1, hd2] at h
          rcases ih (k + 1) (some (k, hd)) i b h with h1 | h1
          · injection h1 with h2
            injection h2 with h3 h4
            omega
          · omega
        · simp only [selectLoopAux, hd1, hd2] at h
          rcases ih (k + 1) none i b h with h1 | h1
          · exact Option.noConfusion h1
          · omega
      · simp only [selectLoopAux, hd1] at h
        rcases ih (k + 1) acc i b h with h1 | h1
        · exact Or.inl h1
        · omega

theorem selectLoopAux_events (bs : List MXBehavior) :
    ∀ (k : Nat) (acc : Option (Nat × MXBehavior)) (e : Event),
      e ∈ (selectLoopAux bs k acc).2 →
      ∃ j, e = Event.dialAttempt j ∨ e = Event.connOpened j ∨ e = Event.connClosed j := by
  induction bs with
  | nil =>
      intro k acc e h
      simp [selectLoopAux] at h
  | cons hd tl ih =>
      intro k acc e h
      rcases hd1 : hd.dialErr with _ | e1
      · rcases hd2 : hd.greetErr with _ | e2
        · simp only [selectLoopAux, hd1, hd2, List.mem_cons] at h
          rcases h with h | h | h
          · exact ⟨k, Or.inl h⟩
          · exact ⟨k, Or.inr (Or.inl h)⟩
          · exact ih _ _ e h
        · simp only [selectLoopAux, hd1, hd2, List.mem_cons] at h
          rcases h with h | h | h | h
          · exact ⟨k, Or.inl h⟩
          · exact ⟨k, Or.inr (Or.inl h)⟩
          · exact ⟨k, Or.inr (Or.inr h)⟩
          · exact ih _ _ e h
      · simp only [selectLoopAux, hd1, List.mem_cons] at h
        rcases h with h | h
        · exact ⟨k, Or.inl h⟩
        · exact ih _ _ e h

theorem selectLoopAux_no_cmds (bs : List MXBehavior) (k : Nat)
    (acc : Option (Nat × MXBehavior)) (j : Nat) :
    Event.cmdHello j ∉ (selectLoopAux bs k acc).2 ∧
    Event.cmdMail j ∉ (selectLoopAux bs k acc).2 ∧
    Event.cmdRcpt j ∉ (selectLoopAux bs k acc).2 := by
  refine ⟨?_, ?_, ?_⟩ <;> intro hmem <;>
    rcases selectLoopAux_events bs k acc _ hmem with ⟨m, h | h | h⟩ <;>
      exact Event.noConfusion h

theorem selectLoopAux_sel_not_closed (bs : List MXBehavior) :
    ∀ (k : Nat) (acc : Option (Nat × MXBehavior)) (i : Nat) (b : MXBehavior),
      (∀ j c, acc = some (j, c) → j < k) →
      (selectLoopAux bs k acc).1 = some (i, b) →
      Event.connClosed i ∉ (selectLoopAux bs k acc).2 := by
  induction bs with
  | nil =>
      intro k acc i b hacc h
      simp [selectLoopAux]
  | cons hd tl ih =>
      intro k acc i b hacc h
      rcases hd1 : hd.dialErr with _ | e1
      · rcases hd2 : hd.greetErr with _ | e2
        · simp only [selectLoopAux, hd1, hd2, List.mem_cons] at h ⊢
          intro hmem
          rcases hmem with h1 | h1 | h1
          · exact Event.noConfusion h1
          · exact Event.noConfusion h1
          · refine ih (k + 1) (some (k, hd)) i b ?_ h h1
            intro j c hj
            injection hj with hj2
            injection hj2 with hj3 hj4
            omega
        · simp only [selectLoopAux, hd1, hd2, List.mem_cons] at h ⊢
          intro hmem
          rcases hmem with h1 | h1 | h1 | h1
          · exact Event.noConfusion h1
          · exact Event.noConfusion h1
          · injection h1 with h2
            rcases selectLoopAux_sel_index tl (k + 1) none i b h with h3 | h3
            · exact Option.noConfusion h3
            · omega
          · refine ih (k + 1) none i b ?_ h h1
            intro j c hj
            exact absurd hj (by simp)
      · simp only [selectLoopAux, hd1, List.mem_cons] at h ⊢
        intro hmem
        rcases hmem with h1 | h1
        · exact Event.noConfusion h1
        · refine ih (k + 1) acc i b ?_ h h1
          intro j c hj
          have := hacc j c hj
          omega

theorem protocolPhase_events (b : MXBehavior) (i : Nat) (e : Event)
    (h : e ∈ (protocolPhase b i).2) :
    e = Event.cmdHello i ∨ e = Event.cmdMail i ∨ e = Event.cmdRcpt i := by
  rcases h1 : b.helloErr with _ | e1 <;> rcases h2 : b.mailErr with _ | e2 <;>
    rcases h3 : b.rcptSendErr with _ | e3 <;>
      simp only [protocolPhase, h1, h2, h3, List.mem_cons, List.not_mem_nil,
        or_false] at h <;> tauto

theorem countEvent_append (e : Event) (l1 l2 : List Event) :
    countEvent e (l1 ++ l2) = countEvent e l1 + countEvent e l2 := by
  induction l1 with
  | nil => simp [countEvent]
  | cons x xs ih => simp [countEvent, ih, Nat.add_assoc]

theorem countEvent_eq_zero (e : Event) (l : List Event) (h : e ∉ l) :
    countEvent e l = 0 := by
  induction l with
  | nil => rfl
  | cons x xs ih =>
      simp only [List.mem_cons, not_or] at h
      have hx : ¬ x = e := fun hx => h.1 hx.symm
      simp [countEvent, hx, ih h.2]

theorem deferredCleanup_eq (b : MXBehavior) (i : Nat) :
    deferredCleanup b i = [Event.connClosed i, Event.quitCalled i] := rfl

theorem checkMailbox_selected (fd fe ce : String) (servers : List MXBehavior)
    (i : Nat) (b : MXBehavior) (tr : List Event)
    (hsel : selectLoopAux servers 0 none = (some (i, b), tr)) :
    checkMailbox fd fe ce servers =
      ((protocolPhase b i).1, tr ++ (protocolPhase b i).2 ++ deferredCleanup b i) := by
  simp [checkMailbox, hsel]

/-- C2: on every exit path of checkMailbox after a session has been
selected, whatever the selected server's behaviour on the handshake, the
sender declaration and the probe, the selected session's connection is
released exactly once, the termination command is issued (by Client.Quit,
whose own failure on the already closed connection is discarded), and the
returned result is exactly the protocol phase's result, unaffected by the
close and quit errors. -/
theorem checkMailbox_cleanup_once (fd fe ce : String) (servers : List MXBehavior)
    (i : Nat) (b : MXBehavior) (tr : List Event)
    (hsel : selectLoopAux servers 0 none = (some (i, b), tr)) :
    (checkMailbox fd fe ce servers).1 = (protocolPhase b i).1 ∧
    countEvent (Event.connClosed i) (checkMailbox fd fe ce servers).2 = 1 ∧
    Event.quitCalled i ∈ (checkMailbox fd fe ce servers).2 := by
  have hck := checkMailbox_selected fd fe ce servers i b tr hsel
  have hnc : Event.connClosed i ∉ tr := by
    have hh := selectLoopAux_sel_not_closed servers 0 none i b
      (fun j c hj => absurd hj (by simp)) (by rw [hsel])
    rwa [hsel] at hh
  refine ⟨by rw [hck], ?_, ?_⟩
  · rw [hck]
    have h1 : countEvent (Event.connClosed i) tr = 0 := countEvent_eq_zero _ _ hnc
    have h2 : countEvent (Event.connClosed i) (protocolPhase b i).2 = 0 := by
      apply countEvent_eq_zero
      intro hmem
      rcases protocolPhase_events b i _ hmem with h | h | h <;> exact Event.noConfusion h
    simp [countEvent_append, h1, h2, deferredCleanup_eq, countEvent]
  · rw [hck]
    simp [deferredCleanup_eq, List.mem_append]

/-- Witness for C2 on a working single-candidate list. -/
theorem checkMailbox_cleanup_once_witness :
    (checkMailbox "d" "s" "e" [behaviorAccept250]).1 =
      (protocolPhase behaviorAccept250 0).1 ∧
    countEvent (Event.connClosed 0) (checkMailbox "d" "s" "e" [behaviorAccept250]).2 = 1 ∧
    Event.quitCalled 0 ∈ (checkMailbox "d" "s" "e" [behaviorAccept250]).2 :=
  checkMailbox_cleanup_once "d" "s" "e" [behaviorAccept250] 0 behaviorAccept250
    [Event.dialAttempt 0, Event.connOpened 0] rfl

/-- A candidate that accepts the connection and greeting but rejects the
HELO handshake. -/
def behaviorHelloFail : MXBehavior :=
  { dialErr := none, greetErr := none
    helloErr := some (GoError.transport "helo refused"), mailErr := none
    rcptSendErr := none, replyRead := Sum.inr 250, closeErr := none }

/-- C1 (behaviour of the code at the claim's scenario): with candidates
zero refusing the connection and candidates one and two both accepting
and yielding sessions, the first viable session is candidate one's, yet
checkMailbox keeps iterating: the probe commands go to candidate two,
candidate one's session is never used, and candidate one's connection is
opened but never closed. -/
theorem checkMailbox_no_early_stop :
    (checkMailbox "d" "s" "e"
      [behaviorRefused, behaviorAccept250, behaviorAccept250]).1 = none ∧
    Event.connOpened 1 ∈ (checkMailbox "d" "s" "e"
      [behaviorRefused, behaviorAccept250, behaviorAccept250]).2 ∧
    Event.connClosed 1 ∉ (checkMailbox "d" "s" "e"
      [behaviorRefused, behaviorAccept250, behaviorAccept250]).2 ∧
    Event.cmdHello 1 ∉ (checkMailbox "d" "s" "e"
      [behaviorRefused, behaviorAccept250, behaviorAccept250]).2 ∧
    Event.cmdRcpt 2 ∈ (checkMailbox "d" "s" "e"
      [behaviorRefused, behaviorAccept250, behaviorAccept250]).2 := by
  refine ⟨rfl, ?_, ?_, ?_, ?_⟩ <;> decide

/-- C4 (behaviour of the code at the claim's scenario): candidate zero
accepts the connection and yields a working session, candidate one
accepts the connection but fails session setup.  checkMailbox still
returns the no-working-mail-servers error, because the failed session
setup of candidate one overwrites the already selected client with nil;
candidate zero's connection is also left open.  On the list holding only
candidate zero the same call succeeds, showing that candidate was usable. -/
theorem checkMailbox_usable_server_lost :
    (checkMailbox "d" "s" "e" [behaviorAccept250, behaviorGreetFail]).1 =
      some (GoError.msg "no working mail servers could be found") ∧
    (checkMailbox "d" "s" "e" [behaviorAccept250]).1 = none ∧
    Event.connOpened 0 ∈
      (checkMailbox "d" "s" "e" [behaviorAccept250, behaviorGreetFail]).2 ∧
    Event.connClosed 0 ∉
      (checkMailbox "d" "s" "e" [behaviorAccept250, behaviorGreetFail]).2 := by
  refine ⟨rfl, rfl, ?_, ?_⟩ <;> decide

/-- C3 counterexample: a working server answering the recipient probe
with reply code 450 makes checkMailbox return an error (the wrapped
reply-code error), not the claimed error-free indeterminate outcome. -/
theorem checkMailbox_code450_errors :
    (checkMailbox "d" "s" "e" [behaviorWithReply (Sum.inr 450)]).1 =
      some (GoError.wrap (GoError.replyCodeError 450) "smtp response error") ∧
    (checkMailbox "d" "s" "e" [behaviorWithReply (Sum.inr 450)]).1 ≠ none := by
  refine ⟨rfl, ?_⟩
  decide

/-- C3 (amended): the end-to-end reply-code mapping the code implements:
250 yields success, 550 the invalid-mailbox error, 554 the
blocked-sender error; the remaining codes 250 through 259 are folded
into success without an error; every other code yields an error wrapping
the reply-code error rather than an error-free indeterminate outcome. -/
theorem checkMailbox_reply_table (code : Nat) :
    (checkMailbox "d" "s" "e" [behaviorWithReply (Sum.inr code)]).1 =
      specReplyOutcome code := by
  have hsel : selectLoopAux [behaviorWithReply (Sum.inr code)] 0 none =
      (some (0, behaviorWithReply (Sum.inr code)),
        [Event.dialAttempt 0, Event.connOpened 0]) := rfl
  rw [checkMailbox_selected "d" "s" "e" _ 0 _ _ hsel]
  simp only [protocolPhase, behaviorWithReply, interpretReply, readReplyResult,
    specReplyOutcome]
  split_ifs <;> simp_all

/-- C8: once a session is selected, a handshake failure makes
checkMailbox return that cause wrapped in the HELO failure message and no
sender-declaration or recipient-probe command is ever issued; a
sender-declaration failure makes it return that cause wrapped in the MAIL
FROM failure message and no recipient-probe command is issued; in both
cases the result is an error and is not the invalid-mailbox verdict. -/
theorem checkMailbox_early_failures (fd fe ce : String)
    (servers : List MXBehavior) (i : Nat) (b : MXBehavior) (tr : List Event)
    (hsel : selectLoopAux servers 0 none = (some (i, b), tr)) :
    (∀ e, b.helloErr = some e →
      (checkMailbox fd fe ce servers).1 =
        some (GoError.wrap e "could not HELO smtp server") ∧
      (∀ j, Event.cmdMail j ∉ (checkMailbox fd fe ce servers).2) ∧
      (∀ j, Event.cmdRcpt j ∉ (checkMailbox fd fe ce servers).2) ∧
      (checkMailbox fd fe ce servers).1 ≠ none ∧
      (checkMailbox fd fe ce servers).1 ≠
        some (GoError.msg "email does not seem to exist (or server blocks detection)")) ∧
    (∀ e, b.helloErr = none → b.mailErr = some e →
      (checkMailbox fd fe ce servers).1 =
        some (GoError.wrap e "could not MAIL FROM smtp server") ∧
      (∀ j, Event.cmdRcpt j ∉ (checkMailbox fd fe ce servers).2) ∧
      (checkMailbox fd fe ce servers).1 ≠ none ∧
      (checkMailbox fd fe ce servers).1 ≠
        some (GoError.msg "email does not seem to exist (or server blocks detection)")) := by
  have hck := checkMailbox_selected fd fe ce servers i b tr hsel
  have htr : ∀ j, Event.cmdMail j ∉ tr ∧ Event.cmdRcpt j ∉ tr := by
    intro j
    have hh := selectLoopAux_no_cmds servers 0 none j
    rw [hsel] at hh
    exact ⟨hh.2.1, hh.2.2⟩
  constructor
  · intro e he
    have hp : protocolPhase b i =
        (some (GoError.wrap e "could not HELO smtp server"), [Event.cmdHello i]) := by
      simp [protocolPhase, he]
    rw [hck, hp]
    refine ⟨rfl, ?_, ?_, ?_, ?_⟩
    · intro j
      simp only [deferredCleanup_eq, List.mem_append, List.mem_cons,
        List.not_mem_nil, or_false, not_or]
      refine ⟨⟨(htr j).1, ?_⟩, ?_, ?_⟩ <;> intro hc <;> exact Event.noConfusion hc
    · intro j
      simp only [deferredCleanup_eq, List.mem_append, List.mem_cons,
        List.not_mem_nil, or_false, not_or]
      refine ⟨⟨(htr j).2, ?_⟩, ?_, ?_⟩ <;> intro hc <;> exact Event.noConfusion hc
    · intro hc
      exact Option.noConfusion hc
    · intro hc
      exact GoError.noConfusion (Option.some.inj hc)
  · intro e he hm
    have hp : protocolPhase b i =
        (some (GoError.wrap e "could not MAIL FROM smtp server"),
          [Event.cmdHello i, Event.cmdMail i]) := by
      simp [protocolPhase, he, hm]
    rw [hck, hp]
    refine ⟨rfl, ?_, ?_, ?_⟩
    · intro j
      simp only [deferredCleanup_eq, List.mem_append, List.mem_cons,
        List.not_mem_nil, or_false, not_or]
      refine ⟨⟨(htr j).2, ?_, ?_⟩, ?_, ?_⟩ <;> intro hc <;>
        exact Event.noConfusion hc
    · intro hc
      exact Option.noConfusion hc
    · intro hc
      exact GoError.noConfusion (Option.some.inj hc)

/-- Witness for C8 on a single candidate whose HELO is refused. -/
theorem checkMailbox_early_failures_witness :
    (checkMailbox "d" "s" "e" [behaviorHelloFail]).1 =
      some (GoError.wrap (GoError.transport "helo refused")
        "could not HELO smtp server") ∧
    Event.cmdMail 0 ∉ (checkMailbox "d" "s" "e" [behaviorHelloFail]).2 ∧
    Event.cmdRcpt 0 ∉ (checkMailbox "d" "s" "e" [behaviorHelloFail]).2 := by
  have h := (checkMailbox_early_failures "d" "s" "e" [behaviorHelloFail] 0
    behaviorHelloFail [Event.dialAttempt 0, Event.connOpened 0] rfl).1
    (GoError.transport "helo refused") rfl
  exact ⟨h.1, h.2.1 0, h.2.2.1 0⟩

/-- C9: once a session is selected and the handshake, sender declaration
and probe write all succeed, a transport-level error while reading the
recipient-probe reply makes checkMailbox return that cause wrapped as an
smtp response error, an outcome distinct from the success, invalid and
blocked verdict outcomes. -/
theorem checkMailbox_read_error (fd fe ce : String)
    (servers : List MXBehavior) (i : Nat) (b : MXBehavior) (tr : List Event)
    (e : GoError) (hsel : selectLoopAux servers 0 none = (some (i, b), tr))
    (hh : b.helloErr = none) (hm : b.mailErr = none) (hr : b.rcptSendErr = none)
    (hread : b.replyRead = Sum.inl e) :
    (checkMailbox fd fe ce servers).1 =
      some (GoError.wrap e "smtp response error") ∧
    (checkMailbox fd fe ce servers).1 ≠ none ∧
    (checkMailbox fd fe ce servers).1 ≠
      some (GoError.msg "appears our IP is blacklisted") ∧
    (checkMailbox fd fe ce servers).1 ≠
      some (GoError.msg "email does not seem to exist (or server blocks detection)") := by
  have hck := checkMailbox_selected fd fe ce servers i b tr hsel
  have hp : (protocolPhase b i).1 = some (GoError.wrap e "smtp response error") := by
    simp [protocolPhase, hh, hm, hr, hread, interpretReply, readReplyResult]
  rw [hck]
  refine ⟨hp, ?_, ?_, ?_⟩
  · rw [hp]
    intro hc
    exact Option.noConfusion hc
  · rw [hp]
    intro hc
    exact GoError.noConfusion (Option.some.inj hc)
  · rw [hp]
    intro hc
    exact GoError.noConfusion (Option.some.inj hc)

/-- Witness for C9 on a single candidate whose probe reply read drops. -/
theorem checkMailbox_read_error_witness :
    (checkMailbox "d" "s" "e"
      [behaviorWithReply (Sum.inl (GoError.transport "read failed"))]).1 =
      some (GoError.wrap (GoError.transport "read failed") "smtp response error") ∧
    (checkMailbox "d" "s" "e"
      [behaviorWithReply (Sum.inl (GoError.transport "read failed"))]).1 ≠ none ∧
    (checkMailbox "d" "s" "e"
      [behaviorWithReply (Sum.inl (GoError.transport "read failed"))]).1 ≠
      some (GoError.msg "appears our IP is blacklisted") ∧
    (checkMailbox "d" "s" "e"
      [behaviorWithReply (Sum.inl (GoError.transport "read failed"))]).1 ≠
      some (GoError.msg "email does not seem to exist (or server blocks detection)") :=
  checkMailbox_read_error "d" "s" "e"
    [behaviorWithReply (Sum.inl (GoError.transport "read failed"))] 0
    (behaviorWithReply (Sum.inl (GoError.transport "read failed")))
    [Event.dialAttempt 0, Event.connOpened 0]
    (GoError.transport "read failed") rfl rfl rfl rfl rfl
